import Mathlib

/-!
Verification development for the trace-conformance test helpers of
knative eventing (test/conformance/helpers).

The embedded code:
- `getTraceIDHeader` and the trace-matching phase of `tracingTest`
  (test/conformance/helpers/tracing_test_helper.go);
- the W3C trace-context extraction these call into (an external library:
  go.opentelemetry.io/otel `propagation.TraceContext`), embedded from its
  documented behaviour;
- collaborators of `tracingTest` that are not part of the examined sources
  (`GetTraceTree`, `MatchesSubtree` from
  test/conformance/helpers/tracing, and `zipkin.JSONTracePred` from
  knative.dev/pkg), modelled from the specification.
-/

/-- One captured event, as consumed by the trace correlator.
`HTTPHeaders` is a nullable header mapping (Go: `nil` map vs a map of
header name to values; we keep the first value of each header, which is
what `http.Header.Get` returns). -/
structure EventInfo where
  httpHeaders : Option (List (String × String))
deriving DecidableEq, Repr

/-- ASCII lower-casing of one character, as used by the case-insensitive
canonicalisation of HTTP header names. -/
def lowerChar (c : Char) : Char :=
  if decide (c ≥ 'A') && decide (c ≤ 'Z') then Char.ofNat (c.toNat + 32) else c

/-- Case-insensitive string comparison (over the character lists). -/
def eqCI (a b : List Char) : Bool :=
  a.map lowerChar == b.map lowerChar

/-- Case-insensitive header lookup: Go `http.Header.Get` canonicalises
the header name, i.e. the lookup is case-insensitive, and returns the
first value set for the header. -/
def lookupHeaderCI (hs : List (String × String)) (key : String) : Option String :=
  match hs.find? (fun kv => eqCI kv.1.toList key.toList) with
  | some kv => some kv.2
  | none => none

/-- Hexadecimal digit as accepted by the W3C traceparent grammar
(lowercase only, as in the otel implementation). -/
def isHexDigit (c : Char) : Bool :=
  (decide (c ≥ '0') && decide (c ≤ '9')) || (decide (c ≥ 'a') && decide (c ≤ 'f'))

/-- Split a character list at each dash, the field separator of the
traceparent grammar. -/
def splitOnDash : List Char → List (List Char)
  | [] => [[]]
  | c :: rest =>
    if c == '-' then [] :: splitOnDash rest
    else
      match splitOnDash rest with
      | [] => [[c]]
      | g :: gs => (c :: g) :: gs

/-- Parse a `traceparent` header value, returning the trace ID when the
value carries a well-formed trace context with a valid (non-zero) trace
ID. Embeds the behaviour of otel `propagation.TraceContext.Extract`
followed by `SpanContext.HasTraceID`: the value is
`version-traceid-spanid-flags`, version is two hex digits other than
`ff`, the trace ID is 32 hex digits not all zero, the span ID is 16 hex
digits not all zero, the flags are two hex digits, and a version-`00`
value admits no trailing fields. -/
def parseTraceparent (v : String) : Option String :=
  match splitOnDash v.toList with
  | ver :: tid :: sid :: flags :: rest =>
    if (ver.length == 2 && ver.all isHexDigit && ver != ['f', 'f']
        && tid.length == 32 && tid.all isHexDigit
        && tid.any (fun c => c != '0')
        && sid.length == 16 && sid.all isHexDigit
        && sid.any (fun c => c != '0')
        && flags.length == 2 && flags.all isHexDigit
        && (ver != ['0', '0'] || rest.isEmpty)) then
      some (String.mk tid)
    else
      none
  | _ => none

/-- Trace-ID extraction for one captured event: a `nil` header mapping
yields no trace ID; otherwise the `traceparent` header is looked up
case-insensitively and parsed. This is the per-event body of the loop in
`getTraceIDHeader`. -/
def extractEventTraceID (ev : EventInfo) : Option String :=
  match ev.httpHeaders with
  | none => none
  | some hs =>
    match lookupHeaderCI hs "traceparent" with
    | none => none
    | some v => parseTraceparent v

/-- Embedding of `getTraceIDHeader`: scan the captured events in order
and return the trace ID of the first event whose headers carry a
well-formed trace context; when no event yields one, the Go code calls
`t.Fatalf` (modelled as `none`). -/
def getTraceIDHeader : List EventInfo → Option String
  | [] => none
  | ev :: rest =>
    match extractEventTraceID ev with
    | some tid => some tid
    | none => getTraceIDHeader rest

/-- Modelled from the spec: an observed span (spec section 3,
`ObservedSpan`; the on-the-wire type `model.SpanModel` of the zipkin
client). The span record has an ID, an optional parent ID, a declared
name, an optional kind, a start time and tags. -/
structure SpanModel where
  spanID : Nat
  parentID : Option Nat
  name : String
  kind : Option String
  startTime : Nat
  tags : List (String × String)
deriving DecidableEq, Repr

/-- Modelled from the spec: an observed tree (spec section 3,
`ObservedTree`): one span plus its ordered children. -/
inductive SpanTree where
  | mk (span : SpanModel) (children : List SpanTree)
deriving Repr

def SpanTree.span : SpanTree → SpanModel
  | .mk s _ => s

def SpanTree.children : SpanTree → List SpanTree
  | .mk _ c => c

/-- Modelled from the spec: deterministic child ordering (spec sections
3 and 4.2): start time ascending, ties broken by span ID. -/
def spanLE (a b : SpanModel) : Bool :=
  a.startTime < b.startTime || (a.startTime == b.startTime && a.spanID ≤ b.spanID)

def insertSorted (s : SpanModel) : List SpanModel → List SpanModel
  | [] => [s]
  | x :: xs => if spanLE s x then s :: x :: xs else x :: insertSorted s xs

def sortSpans (l : List SpanModel) : List SpanModel :=
  l.foldr insertSorted []

/-- Modelled from the spec: the malformed-trace check of the tree
builder (spec section 4.2): a span ID reused by two different span
records is structurally impossible input. -/
def spansConflict (spans : List SpanModel) : Bool :=
  spans.any (fun a => spans.any (fun b => a.spanID == b.spanID && a != b))

/-- Modelled from the spec: a root of the observed forest (spec section
4.2): a span with no parent ID, or whose declared parent is absent from
the fetched set. -/
def isRoot (spans : List SpanModel) (s : SpanModel) : Bool :=
  match s.parentID with
  | none => true
  | some p => !(spans.any (fun o => o.spanID == p))

/-- Modelled from the spec: direct children of a span in the fetched
set, in deterministic order. -/
def childrenOf (spans : List SpanModel) (parent : SpanModel) : List SpanModel :=
  sortSpans (spans.filter (fun s => s.parentID == some parent.spanID))

/-- Modelled from the spec: build the observed tree rooted at `root`.
The fuel bounds the recursion depth; for acyclic input (the only input
the builder accepts in practice) depth never exceeds the number of
spans, so `buildForest` passes `spans.length`. -/
def buildTree (spans : List SpanModel) : Nat → SpanModel → SpanTree
  | 0, root => .mk root []
  | fuel + 1, root => .mk root ((childrenOf spans root).map (buildTree spans fuel))

/-- Modelled from the spec: `BuildForest` (spec section 4.2): the roots
of the fetched set, in deterministic order, each expanded into a tree. -/
def buildForest (spans : List SpanModel) : List SpanTree :=
  (sortSpans (spans.filter (isRoot spans))).map (buildTree spans spans.length)

/-- Modelled from the spec: `GetTraceTree` (the tree builder entry
point, not part of the examined sources): fails with a malformed-trace
error on structurally impossible input, otherwise returns the observed
forest. -/
def getTraceTree (spans : List SpanModel) : Except String (List SpanTree) :=
  if spansConflict spans then .error "malformed trace" else .ok (buildForest spans)

/-- Modelled from the spec: the service-name matcher of an expected span
(spec section 3, `serviceNamePredicate`): exact string or "any". -/
inductive NamePred where
  | any
  | exact (s : String)
deriving DecidableEq, Repr

/-- Modelled from the spec: a node of the expected tree (spec section 3,
`SpanExpectation`; the `TestSpanTree` type of the helpers): a name
matcher, an optional kind constraint, and ordered expected children. -/
inductive TestSpanTree where
  | mk (namePred : NamePred) (kindConstraint : Option String) (children : List TestSpanTree)
deriving Repr

def TestSpanTree.children : TestSpanTree → List TestSpanTree
  | .mk _ _ c => c

/-- Modelled from the spec: the per-node predicate (spec section 4.1):
the name matcher must accept the span name, and an absent kind
constraint means "don't care". -/
def spanSatisfies (p : NamePred) (k : Option String) (s : SpanModel) : Bool :=
  (match p with
   | .any => true
   | .exact n => n == s.name) &&
  (match k with
   | none => true
   | some kc => s.kind == some kc)

mutual

/-- Modelled from the spec: rooted match of an expected tree at an
observed node (spec section 4.3 item 1): the node predicate must accept
the observed span, and the expected children must embed, in order, into
the observed children. -/
def rootedMatch : TestSpanTree → SpanTree → Bool
  | .mk p k ec, .mk s oc => spanSatisfies p k s && matchChildren ec oc

/-- Modelled from the spec: ordered embedding of the expected children
into the observed children (spec section 4.3 item 1): observed children
matching no expectation are skipped, but expected children are matched
in sequence against observed children in sequence. -/
def matchChildren : List TestSpanTree → List SpanTree → Bool
  | [], _ => true
  | _ :: _, [] => false
  | e :: es, o :: os =>
    (rootedMatch e o && matchChildren es os) || matchChildren (e :: es) os

end

mutual

/-- Modelled from the spec: search for the expected tree rooted at the
given observed tree or anywhere below it (spec section 4.3 item 2),
returning the observed span at which the first successful rooted match
anchors. -/
def findMatchTree (e : TestSpanTree) : SpanTree → List SpanModel
  | .mk s oc =>
    if rootedMatch e (.mk s oc) then [s] else findMatchForest e oc

/-- Modelled from the spec: first-fit search over a forest in
deterministic order (spec section 4.3 item 3). -/
def findMatchForest (e : TestSpanTree) : List SpanTree → List SpanModel
  | [] => []
  | t :: ts =>
    match findMatchTree e t with
    | [] => findMatchForest e ts
    | r => r

end

/-- Modelled from the spec: `MatchesSubtree` (spec section 4.3, not part
of the examined sources). The first component is the list of matches
(empty when no embedding exists). The `verbose` flag models the nullable
`*testing.T` handle (spec section 4.3 item 4): an absent handle (false)
suppresses diagnostic output; a present handle (true) additionally
renders the expected-vs-observed shapes, modelled as the structured pair
emitted in the second component. The flag never affects the match
result. -/
def matchesSubtree (verbose : Bool) (e : TestSpanTree) (forest : List SpanTree) :
    List SpanModel × List (TestSpanTree × List SpanTree) :=
  (findMatchForest e forest, if verbose then [(e, forest)] else [])

/-- Modelled from the spec: `zipkin.JSONTracePred` (an external
collaborator, spec section 4.5 trace poller): poll the backend for the
trace, evaluating the predicate on each fetched span list, until the
predicate holds or the deadline expires. `fetches` is the sequence of
span lists the backend returns on successive poll ticks; exhausting it
models the timeout. The poller returns the last-fetched span list
alongside the success flag (Go: the trace together with a nil or non-nil
error). -/
def jsonTracePred (pred : List SpanModel → Bool) : List (List SpanModel) → List SpanModel × Bool
  | [] => ([], false)
  | tr :: rest =>
    if pred tr then (tr, true)
    else
      match rest with
      | [] => (tr, false)
      | _ :: _ => jsonTracePred pred rest

/-- The anonymous predicate that `tracingTest` passes to
`zipkin.JSONTracePred`: rebuild the observed forest; a malformed trace
is reported as a non-match (`return false`); otherwise the subtree match
runs with an absent (`nil`) verbose handle and the predicate holds when
the match list is non-empty. -/
def tracePred (expected : TestSpanTree) (trace : List SpanModel) : Bool :=
  match getTraceTree trace with
  | .error _ => false
  | .ok forest => (matchesSubtree false expected forest).1.length > 0

/-- Outcome of the trace-matching phase of `tracingTest`. The fatal
outcomes carry the data the Go code renders: `fatalMalformed` carries the
last-fetched trace logged as "Trace so far" before `t.Fatal(err)`;
`fatalNoMatch` carries the expected tree, the observed forest and the
last-fetched trace reported by `t.Fatalf("No matching subtree...")`. -/
inductive Outcome where
  | passed
  | fatalMalformed (lastTrace : List SpanModel)
  | fatalNoMatch (expected : TestSpanTree) (observed : List SpanTree) (lastTrace : List SpanModel)
deriving Repr

/-- Embedding of the trace-matching phase of `tracingTest` (after
`getTraceIDHeader` produced the trace ID): poll via
`zipkin.JSONTracePred`; when the poll succeeds the phase passes. When the
poll fails, the code logs the trace fetched so far, rebuilds the
observed forest from that last-fetched span list (fatal on a
malformed-trace error), and makes one final subtree-match attempt with a
present verbose handle, fatal only when that final match is empty. The
second component collects the diagnostic output of the matcher calls. -/
def tracingTest (expected : TestSpanTree) (fetches : List (List SpanModel)) :
    Outcome × List (TestSpanTree × List SpanTree) :=
  let p := jsonTracePred (tracePred expected) fetches
  if p.2 then (.passed, [])
  else
    match getTraceTree p.1 with
    | .error _ => (.fatalMalformed p.1, [])
    | .ok forest =>
      let r := matchesSubtree true expected forest
      if r.1.length = 0 then (.fatalNoMatch expected forest p.1, r.2)
      else (.passed, r.2)

/-! Concrete fixtures used by witnesses and counterexamples. -/

/-- A captured event carrying a well-formed trace context (the W3C
example traceparent value). -/
def evT1 : EventInfo :=
  ⟨some [("traceparent", "00-4bf92f3577b34da6a3ce929d0e0e4736-00f067aa0ba902b7-01")]⟩

/-- A captured event carrying a well-formed trace context with a
different trace ID (and a differently-cased header name). -/
def evT2 : EventInfo :=
  ⟨some [("Traceparent", "00-aabbccddeeff00112233445566778899-00f067aa0ba902b7-01")]⟩

/-- A captured event whose header mapping is entirely absent (Go:
`HTTPHeaders == nil`). -/
def evNoHeader : EventInfo := ⟨none⟩

/-- A captured event whose traceparent header is present but not a
well-formed trace context. -/
def evBadHeader : EventInfo := ⟨some [("traceparent", "not-a-trace-context")]⟩

/-- Observed span fixtures: `sA` is a root, `sC` and `sB` are its
children, with `sC` starting before `sB` so the deterministic child
order is `C` then `B`. -/
def sA : SpanModel := ⟨1, none, "A", none, 0, []⟩

def sC : SpanModel := ⟨2, some 1, "C", none, 1, []⟩

def sB : SpanModel := ⟨3, some 1, "B", none, 2, []⟩

/-- A span record reusing `sA`'s span ID with conflicting tags:
structurally impossible input for the tree builder. -/
def sAdup : SpanModel := ⟨1, none, "A", none, 0, [("conflict", "yes")]⟩

/-- Expectation: a single span named `A`. -/
def expA : TestSpanTree := .mk (.exact "A") none []

/-- Expectation: `A` with expected children `B` then `C`, in that order. -/
def expABC : TestSpanTree :=
  .mk (.exact "A") none [.mk (.exact "B") none [], .mk (.exact "C") none []]

/-- Expectation: `A` with expected children `C` then `B`, matching the
deterministic observed order. -/
def expACB : TestSpanTree :=
  .mk (.exact "A") none [.mk (.exact "C") none [], .mk (.exact "B") none []]

/-! Helper lemmas shared by the claim theorems. -/

/-- A poll iteration whose predicate fails, with further ticks
remaining, hands over to the remaining ticks. -/
lemma jsonTracePred_cons_false (p : List SpanModel → Bool) (tr : List SpanModel)
    (rest : List (List SpanModel)) (hp : p tr = false) (hne : rest ≠ []) :
    jsonTracePred p (tr :: rest) = jsonTracePred p rest := by
  cases rest with
  | nil => exact absurd rfl hne
  | cons r rs => simp [jsonTracePred, hp]

/-- When every poll iteration fails the predicate, the poller returns
the last-fetched span list together with the failure flag. -/
lemma jsonTracePred_all_false (p : List SpanModel → Bool)
    (front : List (List SpanModel)) (last : List SpanModel)
    (hall : ∀ tr ∈ front ++ [last], p tr = false) :
    jsonTracePred p (front ++ [last]) = (last, false) := by
  induction front with
  | nil => simp [jsonTracePred, hall last (by simp)]
  | cons a front ih =>
    have ha : p a = false := hall a (by simp)
    have hne : front ++ [last] ≠ [] := by simp
    rw [List.cons_append, jsonTracePred_cons_false p a (front ++ [last]) ha hne]
    exact ih (fun tr htr => hall tr (List.mem_cons_of_mem a htr))

/-- A failed predicate evaluation on a well-formed trace means the
subtree search found no match in its forest. -/
lemma findMatchForest_nil_of_tracePred_false (expected : TestSpanTree)
    (tr : List SpanModel) (forest : List SpanTree)
    (htree : getTraceTree tr = .ok forest) (hp : tracePred expected tr = false) :
    findMatchForest expected forest = [] := by
  simp only [tracePred, htree, matchesSubtree] at hp
  simpa using hp

/-! Claim theorems. -/

/-- C3: for every list of captured events containing at least one event
whose headers carry a well-formed trace context with a parseable trace
ID, `getTraceIDHeader` returns the trace ID of the first such event in
list order; earlier events with nil or unparseable headers are skipped. -/
theorem getTraceIDHeader_first_wins (pre : List EventInfo) (ev : EventInfo)
    (rest : List EventInfo) (tid : String)
    (hpre : ∀ e ∈ pre, extractEventTraceID e = none)
    (hev : extractEventTraceID ev = some tid) :
    getTraceIDHeader (pre ++ ev :: rest) = some tid := by
  induction pre with
  | nil => simp [getTraceIDHeader, hev]
  | cons a as ih =>
    have ha : extractEventTraceID a = none := hpre a (List.mem_cons_self a as)
    rw [List.cons_append]
    simp only [getTraceIDHeader, ha]
    exact ih (fun e he => hpre e (List.mem_cons_of_mem a he))

/-- Witness for C3: two unusable events (a nil header mapping and an
unparseable traceparent value) precede the usable event, whose trace ID
is returned. -/
theorem getTraceIDHeader_first_wins_witness :
    getTraceIDHeader [evNoHeader, evBadHeader, evT2] =
      some "aabbccddeeff00112233445566778899" :=
  getTraceIDHeader_first_wins [evNoHeader, evBadHeader] evT2 []
    "aabbccddeeff00112233445566778899" (by decide) (by decide)

/-- C4: for every list of captured events in which no event carries a
usable trace-context header, `getTraceIDHeader` takes the fatal path
(modelled as `none`) after the single scan; absence of a header is fatal,
never a retried condition. -/
theorem getTraceIDHeader_no_usable_header_fatal (evs : List EventInfo)
    (h : ∀ e ∈ evs, extractEventTraceID e = none) :
    getTraceIDHeader evs = none := by
  induction evs with
  | nil => rfl
  | cons a as ih =>
    have ha : extractEventTraceID a = none := h a (List.mem_cons_self a as)
    simp only [getTraceIDHeader, ha]
    exact ih (fun e he => h e (List.mem_cons_of_mem a he))

/-- Witness for C4: a list of two events, one with a nil header mapping
and one with an unparseable header, is fatal; so is the empty list. -/
theorem getTraceIDHeader_no_usable_header_fatal_witness :
    getTraceIDHeader [evNoHeader, evBadHeader] = none ∧
    getTraceIDHeader [evNoHeader, evNoHeader] = none ∧
    getTraceIDHeader [] = none :=
  ⟨getTraceIDHeader_no_usable_header_fatal [evNoHeader, evBadHeader] (by decide),
   getTraceIDHeader_no_usable_header_fatal [evNoHeader, evNoHeader] (by decide),
   getTraceIDHeader_no_usable_header_fatal [] (by decide)⟩

/-- C7: a captured event whose header mapping is entirely absent (nil)
yields no trace ID and is skipped: the scan over the remaining events is
unchanged, with no error raised and no dereference of the absent
mapping (extraction is a total function). -/
theorem nil_header_event_skipped (ev : EventInfo) (rest : List EventInfo)
    (h : ev.httpHeaders = none) :
    extractEventTraceID ev = none ∧
    getTraceIDHeader (ev :: rest) = getTraceIDHeader rest := by
  have hx : extractEventTraceID ev = none := by
    simp [extractEventTraceID, h]
  exact ⟨hx, by simp only [getTraceIDHeader, hx]⟩

/-- Witness for C7: the nil-header event in front of a usable event is
skipped and the usable event still decides the result. -/
theorem nil_header_event_skipped_witness :
    extractEventTraceID evNoHeader = none ∧
    getTraceIDHeader [evNoHeader, evT1] = getTraceIDHeader [evT1] :=
  nil_header_event_skipped evNoHeader [evT1] rfl

/-- C9: trace-ID extraction is deterministic and depends only on the
input list: whenever two captured-event lists agree on the per-event
extraction results, `getTraceIDHeader` produces the same outcome (in
particular, two invocations on the same list always agree). -/
theorem getTraceIDHeader_deterministic (l1 l2 : List EventInfo)
    (h : l1.map extractEventTraceID = l2.map extractEventTraceID) :
    getTraceIDHeader l1 = getTraceIDHeader l2 := by
  induction l1 generalizing l2 with
  | nil =>
    cases l2 with
    | nil => rfl
    | cons b bs => simp at h
  | cons a as ih =>
    cases l2 with
    | nil => simp at h
    | cons b bs =>
      simp only [List.map_cons, List.cons.injEq] at h
      obtain ⟨h1, h2⟩ := h
      simp only [getTraceIDHeader, h1]
      cases hb : extractEventTraceID b with
      | some tid => rfl
      | none => exact ih bs h2

/-- Witness for C9: two different event lists with the same per-event
extraction results get the same outcome. -/
theorem getTraceIDHeader_deterministic_witness :
    getTraceIDHeader [evNoHeader, evT1] = getTraceIDHeader [evBadHeader, evT1] :=
  getTraceIDHeader_deterministic [evNoHeader, evT1] [evBadHeader, evT1] (by decide)

/-- C1 (code bug): two captured events whose headers carry well-formed
trace contexts with distinct trace IDs; `getTraceIDHeader` returns the
first trace ID instead of registering the fatal error its own doc
comment promises for multiple trace-ID headers. -/
theorem getTraceIDHeader_multiple_distinct_returns_first :
    extractEventTraceID evT1 = some "4bf92f3577b34da6a3ce929d0e0e4736" ∧
    extractEventTraceID evT2 = some "aabbccddeeff00112233445566778899" ∧
    ("4bf92f3577b34da6a3ce929d0e0e4736" : String) ≠ "aabbccddeeff00112233445566778899" ∧
    getTraceIDHeader [evT1, evT2] = some "4bf92f3577b34da6a3ce929d0e0e4736" :=
  ⟨by decide, by decide, by decide, by decide⟩

/-- Shared helper: when the poll fails with last-fetched trace `tr` and
the forest rebuilds cleanly, the trace-matching phase reduces to the
final verbose match attempt on that forest. -/
lemma tracingTest_poll_failed (expected : TestSpanTree)
    (fetches : List (List SpanModel)) (tr : List SpanModel) (forest : List SpanTree)
    (hpoll : jsonTracePred (tracePred expected) fetches = (tr, false))
    (htree : getTraceTree tr = Except.ok forest) :
    tracingTest expected fetches =
      if (findMatchForest expected forest).length = 0
      then (Outcome.fatalNoMatch expected forest tr, [(expected, forest)])
      else (Outcome.passed, [(expected, forest)]) := by
  unfold tracingTest
  rw [hpoll]
  simp [htree, matchesSubtree]

/-- C2 (counterexample): the first poll fetch is a malformed trace (a
span ID reused with conflicting tags), yet the verification does not
terminate there: the iteration is treated as an ordinary non-match, the
poller continues to the next tick, and the verification passes. -/
theorem malformed_mid_poll_not_terminal :
    getTraceTree [sA, sAdup] = Except.error "malformed trace" ∧
    tracePred expA [sA, sAdup] = false ∧
    tracingTest expA [[sA, sAdup], [sA]] = (Outcome.passed, []) :=
  ⟨rfl, rfl, rfl⟩

/-- C2 (amended): a malformed-trace error during a poll iteration is
reported as an ordinary non-match and, when further ticks remain,
polling continues; a malformed trace terminates the verification
fatally only in the final rebuild after the poll itself has failed. -/
theorem malformed_trace_poll_continues (expected : TestSpanTree) (tr : List SpanModel)
    (rest : List (List SpanModel)) (msg : String)
    (herr : getTraceTree tr = Except.error msg) (hne : rest ≠ []) :
    tracePred expected tr = false ∧
    tracingTest expected (tr :: rest) = tracingTest expected rest ∧
    (∀ tr2 fetches, jsonTracePred (tracePred expected) fetches = (tr2, false) →
      getTraceTree tr2 = Except.error msg →
      tracingTest expected fetches = (Outcome.fatalMalformed tr2, [])) := by
  have hp : tracePred expected tr = false := by simp [tracePred, herr]
  refine ⟨hp, ?_, ?_⟩
  · unfold tracingTest
    rw [jsonTracePred_cons_false (tracePred expected) tr rest hp hne]
  · intro tr2 fetches hpoll herr2
    unfold tracingTest
    rw [hpoll]
    simp [herr2]

/-- Witness for the amended C2: with the malformed fetch first and one
tick remaining, the phase equals the phase on the remaining ticks; and a
poll that fails with a malformed last fetch is fatal. -/
theorem malformed_trace_poll_continues_witness :
    tracePred expA [sA, sAdup] = false ∧
    tracingTest expA [[sA, sAdup], [sC]] = tracingTest expA [[sC]] ∧
    tracingTest expA [[sA, sAdup]] = (Outcome.fatalMalformed [sA, sAdup], []) :=
  ⟨(malformed_trace_poll_continues expA [sA, sAdup] [[sC]] "malformed trace" rfl
      (by simp)).1,
   (malformed_trace_poll_continues expA [sA, sAdup] [[sC]] "malformed trace" rfl
      (by simp)).2.1,
   (malformed_trace_poll_continues expA [sA, sAdup] [[sC]] "malformed trace" rfl
      (by simp)).2.2 [sA, sAdup] [[sA, sAdup]] rfl rfl⟩

/-- C10: when the poll returns an error, the phase makes one final match
attempt on the forest rebuilt from the last-fetched span list; it fails
only if that final match is empty, and passes despite the poll error
when the final verbose match succeeds. -/
theorem poll_error_final_attempt_decides (expected : TestSpanTree)
    (fetches : List (List SpanModel)) (tr : List SpanModel) (forest : List SpanTree)
    (hpoll : jsonTracePred (tracePred expected) fetches = (tr, false))
    (htree : getTraceTree tr = Except.ok forest) :
    ((matchesSubtree true expected forest).1 ≠ [] →
      tracingTest expected fetches = (Outcome.passed, [(expected, forest)])) ∧
    ((matchesSubtree true expected forest).1 = [] →
      tracingTest expected fetches =
        (Outcome.fatalNoMatch expected forest tr, [(expected, forest)])) := by
  have key := tracingTest_poll_failed expected fetches tr forest hpoll htree
  constructor
  · intro hne
    rw [key, if_neg (by simpa [matchesSubtree, List.length_eq_zero] using hne)]
  · intro heq
    rw [key, if_pos (by simpa [matchesSubtree, List.length_eq_zero] using heq)]

/-- Witness for C10: a single fetch whose forest does not match makes
the poll fail; the final attempt on the rebuilt forest is empty and the
phase ends in the no-match fatal carrying that forest and trace. -/
theorem poll_error_final_attempt_decides_witness :
    tracingTest expABC [[sA, sC, sB]] =
      (Outcome.fatalNoMatch expABC
        [SpanTree.mk sA [SpanTree.mk sC [], SpanTree.mk sB []]] [sA, sC, sB],
       [(expABC, [SpanTree.mk sA [SpanTree.mk sC [], SpanTree.mk sB []]])]) :=
  (poll_error_final_attempt_decides expABC [[sA, sC, sB]] [sA, sC, sB]
    [SpanTree.mk sA [SpanTree.mk sC [], SpanTree.mk sB []]] rfl rfl).2 rfl

/-- C6: when the poll ends in failure, the last-fetched raw span list is
still available: the poller hands it back alongside the failure flag,
the phase rebuilds the observed forest from that very list (fatal on a
malformed trace), and reports the expected tree versus the observed
forest in the final diagnostic. -/
theorem poll_failure_renders_last_fetch (expected : TestSpanTree)
    (front : List (List SpanModel)) (last : List SpanModel)
    (hall : ∀ tr ∈ front ++ [last], tracePred expected tr = false) :
    jsonTracePred (tracePred expected) (front ++ [last]) = (last, false) ∧
    (∀ msg, getTraceTree last = Except.error msg →
      tracingTest expected (front ++ [last]) = (Outcome.fatalMalformed last, [])) ∧
    (∀ forest, getTraceTree last = Except.ok forest →
      tracingTest expected (front ++ [last]) =
        (Outcome.fatalNoMatch expected forest last, [(expected, forest)])) := by
  have hpoll := jsonTracePred_all_false (tracePred expected) front last hall
  refine ⟨hpoll, ?_, ?_⟩
  · intro msg herr
    unfold tracingTest
    rw [hpoll]
    simp [herr]
  · intro forest htree
    have hempty : findMatchForest expected forest = [] :=
      findMatchForest_nil_of_tracePred_false expected last forest htree
        (hall last (by simp))
    rw [tracingTest_poll_failed expected (front ++ [last]) last forest hpoll htree,
      if_pos (by simp [hempty])]

/-- Witness for C6: two fetches that never match; the poller returns the
second (last) fetch with the failure flag and the phase reports the
expected tree against the forest rebuilt from that last fetch. -/
theorem poll_failure_renders_last_fetch_witness :
    jsonTracePred (tracePred expABC) ([[]] ++ [[sA, sC, sB]]) = ([sA, sC, sB], false) ∧
    tracingTest expABC ([[]] ++ [[sA, sC, sB]]) =
      (Outcome.fatalNoMatch expABC
        [SpanTree.mk sA [SpanTree.mk sC [], SpanTree.mk sB []]] [sA, sC, sB],
       [(expABC, [SpanTree.mk sA [SpanTree.mk sC [], SpanTree.mk sB []]])]) :=
  ⟨(poll_failure_renders_last_fetch expABC [[]] [sA, sC, sB] (by decide)).1,
   (poll_failure_renders_last_fetch expABC [[]] [sA, sC, sB] (by decide)).2.2
     [SpanTree.mk sA [SpanTree.mk sC [], SpanTree.mk sB []]] rfl⟩

/-- C5: a subtree match invoked with the absent (nil) verbose handle
produces no diagnostic output, and the present handle renders the
expected-vs-observed shapes; every poll iteration of the phase uses the
absent handle (a successful poll leaves no diagnostics), and the only
present-handle invocation is the final attempt after poll failure, whose
rendering is exactly what the phase emits. -/
theorem verbose_handle_only_final (expected : TestSpanTree)
    (fetches : List (List SpanModel)) :
    (∀ e f, (matchesSubtree false e f).2 = []) ∧
    (∀ e f, (matchesSubtree true e f).2 = [(e, f)]) ∧
    ((jsonTracePred (tracePred expected) fetches).2 = true →
      (tracingTest expected fetches).2 = []) ∧
    (∀ tr forest, jsonTracePred (tracePred expected) fetches = (tr, false) →
      getTraceTree tr = Except.ok forest →
      (tracingTest expected fetches).2 = (matchesSubtree true expected forest).2) := by
  refine ⟨fun e f => rfl, fun e f => rfl, ?_, ?_⟩
  · intro h
    unfold tracingTest
    simp [h]
  · intro tr forest hpoll htree
    rw [tracingTest_poll_failed expected fetches tr forest hpoll htree]
    by_cases hc : (findMatchForest expected forest).length = 0
    · rw [if_pos hc]; rfl
    · rw [if_neg hc]; rfl

/-- Witness for C5: a successful poll leaves no diagnostics; a failed
poll leaves exactly the rendering of the final verbose attempt. -/
theorem verbose_handle_only_final_witness :
    (matchesSubtree false expA [SpanTree.mk sA []]).2 = [] ∧
    (tracingTest expA [[sA]]).2 = [] ∧
    (tracingTest expABC [[sA, sC, sB]]).2 =
      (matchesSubtree true expABC
        [SpanTree.mk sA [SpanTree.mk sC [], SpanTree.mk sB []]]).2 :=
  ⟨(verbose_handle_only_final expA [[sA]]).1 expA [SpanTree.mk sA []],
   (verbose_handle_only_final expA [[sA]]).2.2.1 rfl,
   (verbose_handle_only_final expABC [[sA, sC, sB]]).2.2.2 [sA, sC, sB]
     [SpanTree.mk sA [SpanTree.mk sC [], SpanTree.mk sB []]] rfl rfl⟩

/-- C8: with expectation `A` over children `B` then `C` and an observed
tree whose children in deterministic order are `C` then `B`, the subtree
match fails; with the expected children listed in the observed order the
match succeeds, so the failure is due to order alone. -/
theorem expected_children_order_sensitive :
    buildForest [sA, sC, sB] =
      [SpanTree.mk sA [SpanTree.mk sC [], SpanTree.mk sB []]] ∧
    (matchesSubtree true expABC (buildForest [sA, sC, sB])).1 = [] ∧
    (matchesSubtree true expACB (buildForest [sA, sC, sB])).1 = [sA] :=
  ⟨rfl, rfl, rfl⟩
